import Mathlib

/-!
Shallow embedding of the `eda-cli` quality engine and its callers.

The embedding follows `src/homeworks/HW03/eda-cli/src/eda_cli/core.py`
(`compute_quality_flags`), the CLI renderer in
`src/homeworks/HW03/eda-cli/src/eda_cli/cli.py`, and the HTTP endpoints in
`src/homeworks/HW04/eda-cli/src/eda_cli/api.py`.

A pandas DataFrame is modelled as a row count together with a list of named,
kind-tagged columns whose cells are either null (NaN), a rational number, or a
string.  Python floats are modelled as rationals; numpy/pandas reductions
(`nunique`, `duplicated`, `quantile`, `value_counts`) are translated cell by
cell below.
-/

namespace Eda

/-- A single cell of a DataFrame column: NaN/None, a numeric value, or a
string value. -/
inductive Cell where
  | null : Cell
  | num : ℚ → Cell
  | str : String → Cell
deriving DecidableEq, Repr

/-- Coarse dtype of a pandas column: `np.number` dtypes, the
object/category/string dtypes, or anything else. -/
inductive ColKind where
  | numeric : ColKind
  | categorical : ColKind
  | other : ColKind
deriving DecidableEq, Repr

/-- One named column of a DataFrame. -/
structure Column where
  name : String
  kind : ColKind
  cells : List Cell
deriving DecidableEq, Repr

/-- A DataFrame: `nrows` is `len(df)`; every well-formed column has
`cells.length = nrows`. -/
structure Table where
  nrows : ℕ
  cols : List Column
deriving DecidableEq, Repr

/-- Well-formedness: every column has exactly `nrows` cells. -/
def Table.WF (df : Table) : Prop :=
  ∀ c ∈ df.cols, c.cells.length = df.nrows

/-- Pandas `isnull` on one cell. -/
def isNull : Cell → Bool
  | Cell.null => true
  | _ => false

/-- The non-null cells of a column (`dropna` semantics for counting). -/
def nonNullCells (l : List Cell) : List Cell :=
  l.filter (fun c => !isNull c)

/-- Pandas `Series.nunique()` (default `dropna=True`): number of distinct
non-null values. -/
def nunique (l : List Cell) : ℕ :=
  (nonNullCells l).dedup.length

/-- Number of distinct values of a list where null counts as a value equal to
itself — the notion of distinctness used by pandas `duplicated`. -/
def distinctCount {α : Type} [DecidableEq α] (l : List α) : ℕ :=
  l.dedup.length

/-- Pandas `duplicated` flags: an occurrence is flagged iff an equal value
occurred earlier (NaN compares equal to NaN there). -/
def dupFlags {α : Type} [DecidableEq α] : List α → List α → List Bool
  | _, [] => []
  | seen, a :: rest => decide (a ∈ seen) :: dupFlags (a :: seen) rest

/-- Pandas `Series.duplicated().sum()`: number of duplicated occurrences
(not counting first occurrences). -/
def duplicatedSum {α : Type} [DecidableEq α] (l : List α) : ℕ :=
  (dupFlags [] l).count true

/-- Pandas `Series.duplicated().any()`. -/
def duplicatedAny {α : Type} [DecidableEq α] (l : List α) : Bool :=
  (dupFlags [] l).any id

/-- The guarded ratio idiom of `core.py`:
`float(num / den) if den > 0 else 0.0`. -/
def safeRatio (num : ℕ) (den : ℕ) : ℚ :=
  if 0 < den then (num : ℚ) / (den : ℚ) else 0

/-- Python `'id' in s` on a list of characters. -/
def hasIdSub : List Char → Bool
  | 'i' :: 'd' :: _ => true
  | _ :: rest => hasIdSub rest
  | [] => false

/-- Membership test of `compute_quality_flags` pass 3:
`'id' in col.lower()` (lower-casing applied character by character). -/
def isIdColumn (name : String) : Bool :=
  hasIdSub (name.toList.map Char.toLower)

/-- The numeric values of a column, nulls dropped (`dropna` before
`quantile`). -/
def toNums (l : List Cell) : List ℚ :=
  l.filterMap (fun c => match c with | Cell.num q => some q | _ => none)

/-- Linear interpolation at fractional position `h` into the sorted list `s`,
as in pandas' default `quantile` interpolation: the value is
`s[⌊h⌋] + (h − ⌊h⌋)·(s[⌊h⌋+1] − s[⌊h⌋])`, the upper index clamped to the last
element. -/
def interpAt (s : List ℚ) (h : ℚ) : ℚ :=
  s.getD ⌊h⌋.toNat 0 +
    (h - (⌊h⌋.toNat : ℚ)) *
      (s.getD (min (⌊h⌋.toNat + 1) (s.length - 1)) 0 - s.getD ⌊h⌋.toNat 0)

/-- Pandas `Series.quantile(q)` with the default linear interpolation over the
sorted non-null values: interpolate at position `q·(n−1)`. -/
def quantile (l : List ℚ) (q : ℚ) : ℚ :=
  interpAt (List.insertionSort (· ≤ ·) l) (q * ((l.length : ℚ) - 1))

/-- Count of cells equal to the Python number `0`
(`(df[col] == 0).sum()`; NaN compares false). -/
def zeroCount (l : List Cell) : ℕ :=
  l.countP (fun c => decide (c = Cell.num 0))

/-- Detail record appended to `high_cardinality_details`. -/
structure HighCardDetail where
  column : String
  unique_count : ℕ
  threshold : ℤ
deriving DecidableEq, Repr

/-- Value stored in `duplicate_id_info[col]`. -/
structure DupIdInfo where
  duplicate_count : ℕ
  total : ℕ
deriving DecidableEq, Repr

/-- Detail record appended to `zero_columns`. -/
structure ZeroDetail where
  column : String
  zero_ratio : ℚ
  threshold : ℚ
deriving DecidableEq, Repr

/-- Detail record appended to `columns_with_missing`. -/
structure MissingDetail where
  column : String
  missing_ratio : ℚ
  threshold : ℚ
deriving DecidableEq, Repr

/-- Detail record appended to `outlier_columns`. -/
structure OutlierDetail where
  column : String
  outliers_count : ℕ
  outliers_ratio : ℚ
  lower_bound : ℚ
  upper_bound : ℚ
deriving DecidableEq, Repr

/-- Detail record appended to `imbalanced_columns`. -/
structure ImbalanceDetail where
  column : String
  dominant_category : Cell
  dominant_ratio : ℚ
  threshold : ℚ
  unique_categories : ℕ
deriving DecidableEq, Repr

/-- The `results` dict of `compute_quality_flags`, with its fixed key set. -/
structure Results where
  quality_score : ℤ
  has_constant_columns : Bool
  has_high_cardinality : Bool
  has_id_duplicates : Bool
  has_many_zeros : Bool
  has_outliers : Bool
  has_imbalanced_categories : Bool
  constant_columns : List String
  high_cardinality_cols : List String
  high_cardinality_details : List HighCardDetail
  duplicate_id_info : List (String × DupIdInfo)
  zero_columns : List ZeroDetail
  outlier_columns : List OutlierDetail
  imbalanced_columns : List ImbalanceDetail
  columns_with_missing : List MissingDetail
  missing_count : ℕ
  duplicate_count : ℕ
deriving DecidableEq, Repr

/-- The initial `results` dict (lines 52–74 of `core.py`). -/
def initResults : Results :=
  { quality_score := 100
    has_constant_columns := false
    has_high_cardinality := false
    has_id_duplicates := false
    has_many_zeros := false
    has_outliers := false
    has_imbalanced_categories := false
    constant_columns := []
    high_cardinality_cols := []
    high_cardinality_details := []
    duplicate_id_info := []
    zero_columns := []
    outlier_columns := []
    imbalanced_columns := []
    columns_with_missing := []
    missing_count := 0
    duplicate_count := 0 }

/-- Pass 1 per-column test: `df[col].nunique() == 1`. -/
def constantCheck (c : Column) : Bool :=
  decide (nunique c.cells = 1)

/-- Pass 2 per-column test: `unique_count > high_cardinality_threshold`. -/
def highCardCheck (hct : ℤ) (c : Column) : Bool :=
  decide (hct < (nunique c.cells : ℤ))

/-- Pass 3 per-column test: `df[col].duplicated().any()`. -/
def idDupCheck (c : Column) : Bool :=
  duplicatedAny c.cells

/-- Pass 4 ratio: `zero_count / len(df) if len(df) > 0 else 0.0`. -/
def zeroRatioOf (nrows : ℕ) (c : Column) : ℚ :=
  safeRatio (zeroCount c.cells) nrows

/-- Pass 4 per-column test: `zero_ratio > zero_threshold`. -/
def zeroCheck (nrows : ℕ) (zt : ℚ) (c : Column) : Bool :=
  decide (zt < zeroRatioOf nrows c)

/-- Pass 5 ratio: `missing_count / len(df) if len(df) > 0 else 0.0`. -/
def missingRatioOf (nrows : ℕ) (c : Column) : ℚ :=
  safeRatio (c.cells.countP isNull) nrows

/-- Pass 5 per-column test: `missing_ratio > min_missing_share`. -/
def missingCheck (nrows : ℕ) (ms : ℚ) (c : Column) : Bool :=
  decide (ms < missingRatioOf nrows c)

/-- Lower Tukey fence `q1 - outlier_threshold * iqr`. -/
def outlierLower (ot : ℚ) (vals : List ℚ) : ℚ :=
  quantile vals (1/4) - ot * (quantile vals (3/4) - quantile vals (1/4))

/-- Upper Tukey fence `q3 + outlier_threshold * iqr`. -/
def outlierUpper (ot : ℚ) (vals : List ℚ) : ℚ :=
  quantile vals (3/4) + ot * (quantile vals (3/4) - quantile vals (1/4))

/-- Count of cells strictly outside the fences:
`((df[col] < lower) | (df[col] > upper)).sum()`; NaN comparisons are false. -/
def outlierCount (ot : ℚ) (c : Column) : ℕ :=
  c.cells.countP (fun cell =>
    match cell with
    | Cell.num x =>
        decide (x < outlierLower ot (toNums c.cells)) ||
          decide (outlierUpper ot (toNums c.cells) < x)
    | _ => false)

/-- Outlier ratio `outliers_count / len(df[col])`. -/
def outlierRatio (ot : ℚ) (c : Column) : ℚ :=
  (outlierCount ot c : ℚ) / (c.cells.length : ℚ)

/-- The per-column body of the IQR outlier pass (`core.py` lines 139–164):
skip when fewer than 10 non-null values, skip unless `iqr > 0`, flag when the
outlier ratio strictly exceeds the fixed literal `0.05`. -/
def outlierCheck (ot : ℚ) (c : Column) : Option OutlierDetail :=
  let vals := toNums c.cells
  if vals.length < 10 then none
  else
    if 0 < quantile vals (3/4) - quantile vals (1/4) then
      if 1/20 < outlierRatio ot c then
        some
          { column := c.name
            outliers_count := outlierCount ot c
            outliers_ratio := outlierRatio ot c
            lower_bound := outlierLower ot vals
            upper_bound := outlierUpper ot vals }
      else none
    else none

/-- The per-column body of the category-imbalance pass (`core.py` lines
169–183): `value_counts(normalize=True)` over non-null values, require more
than one distinct value, flag when the dominant share strictly exceeds the
threshold. -/
def imbalanceCheck (it : ℚ) (c : Column) : Option ImbalanceDetail :=
  let vs := nonNullCells c.cells
  if 1 < vs.dedup.length then
    let mx := (vs.dedup.map (fun v => vs.count v)).foldr Nat.max 0
    let ratio : ℚ := (mx : ℚ) / (vs.length : ℚ)
    if it < ratio then
      some
        { column := c.name
          dominant_category := (vs.dedup.find? (fun v => vs.count v == mx)).getD Cell.null
          dominant_ratio := ratio
          threshold := it
          unique_categories := vs.dedup.length }
    else none
  else none

/-- Pass 1 (`core.py` lines 76–81): constant columns, −10 each. -/
def constantPass (cols : List Column) (r : Results) : Results :=
  cols.foldl
    (fun acc c =>
      if constantCheck c then
        { acc with
          has_constant_columns := true
          constant_columns := acc.constant_columns ++ [c.name]
          quality_score := acc.quality_score - 10 }
      else acc) r

/-- Pass 2 (`core.py` lines 83–97): high-cardinality categoricals, −5 each. -/
def highCardPass (hct : ℤ) (cols : List Column) (r : Results) : Results :=
  cols.foldl
    (fun acc c =>
      if highCardCheck hct c then
        { acc with
          has_high_cardinality := true
          high_cardinality_cols := acc.high_cardinality_cols ++ [c.name]
          high_cardinality_details := acc.high_cardinality_details ++
            [{ column := c.name, unique_count := nunique c.cells, threshold := hct }]
          quality_score := acc.quality_score - 5 }
      else acc) r

/-- Pass 3 (`core.py` lines 99–109): ID duplicates, −15 each. -/
def idDupPass (cols : List Column) (r : Results) : Results :=
  cols.foldl
    (fun acc c =>
      if idDupCheck c then
        { acc with
          has_id_duplicates := true
          duplicate_id_info := acc.duplicate_id_info ++
            [(c.name, { duplicate_count := duplicatedSum c.cells, total := c.cells.length })]
          quality_score := acc.quality_score - 15 }
      else acc) r

/-- Pass 4 (`core.py` lines 111–123): zero-heavy numeric columns, −8 each. -/
def zeroPass (nrows : ℕ) (zt : ℚ) (cols : List Column) (r : Results) : Results :=
  cols.foldl
    (fun acc c =>
      if zeroCheck nrows zt c then
        { acc with
          has_many_zeros := true
          zero_columns := acc.zero_columns ++
            [{ column := c.name, zero_ratio := zeroRatioOf nrows c, threshold := zt }]
          quality_score := acc.quality_score - 8 }
      else acc) r

/-- Pass 5 (`core.py` lines 125–134): missing-share report; informational
only, the score is not touched. -/
def missingPass (nrows : ℕ) (ms : ℚ) (cols : List Column) (r : Results) : Results :=
  cols.foldl
    (fun acc c =>
      if missingCheck nrows ms c then
        { acc with
          columns_with_missing := acc.columns_with_missing ++
            [{ column := c.name, missing_ratio := missingRatioOf nrows c, threshold := ms }]
        }
      else acc) r

/-- Pass 6 (`core.py` lines 139–164): IQR outliers, −7 each. -/
def outlierPass (ot : ℚ) (cols : List Column) (r : Results) : Results :=
  cols.foldl
    (fun acc c =>
      match outlierCheck ot c with
      | some d =>
          { acc with
            has_outliers := true
            outlier_columns := acc.outlier_columns ++ [d]
            quality_score := acc.quality_score - 7 }
      | none => acc) r

/-- Pass 7 (`core.py` lines 169–183): imbalanced categoricals, −6 each. -/
def imbalancePass (it : ℚ) (cols : List Column) (r : Results) : Results :=
  cols.foldl
    (fun acc c =>
      match imbalanceCheck it c with
      | some d =>
          { acc with
            has_imbalanced_categories := true
            imbalanced_columns := acc.imbalanced_columns ++ [d]
            quality_score := acc.quality_score - 6 }
      | none => acc) r

/-- Dataset-wide missing-cell total `df.isnull().sum().sum()`. -/
def missingCount (df : Table) : ℕ :=
  (df.cols.map (fun c => c.cells.countP isNull)).sum

/-- The rows of the table as lists of cells (for `df.duplicated()`). -/
def tableRows (df : Table) : List (List Cell) :=
  (List.range df.nrows).map (fun i => df.cols.map (fun c => c.cells.getD i Cell.null))

/-- Dataset-wide duplicate-row total `df.duplicated().sum()`. -/
def duplicateRowCount (df : Table) : ℕ :=
  duplicatedSum (tableRows df)

/-- `df.select_dtypes(include=['object', 'category', 'string']).columns`. -/
def categoricalCols (df : Table) : List Column :=
  df.cols.filter (fun c => decide (c.kind = ColKind.categorical))

/-- `df.select_dtypes(include=[np.number]).columns`. -/
def numericCols (df : Table) : List Column :=
  df.cols.filter (fun c => decide (c.kind = ColKind.numeric))

/-- `[col for col in df.columns if 'id' in col.lower()]`. -/
def idCols (df : Table) : List Column :=
  df.cols.filter (fun c => isIdColumn c.name)

/-- The tail of `compute_quality_flags` (`core.py` lines 185–198): set the
dataset-wide counts, then clamp the score with
`int(max(0, min(100, results["quality_score"])))`. -/
def finalizeResults (df : Table) (r : Results) : Results :=
  { r with
    missing_count := missingCount df
    duplicate_count := duplicateRowCount df
    quality_score := max 0 (min 100 r.quality_score) }

/-- `compute_quality_flags` from
`src/homeworks/HW03/eda-cli/src/eda_cli/core.py`: the seven passes in source
order, the dataset-wide counts, and the final clamp. -/
def computeQualityFlags (df : Table) (hct : ℤ) (zt ms ot it : ℚ) : Results :=
  finalizeResults df
    (imbalancePass it (categoricalCols df)
      (outlierPass ot (numericCols df)
        (missingPass df.nrows ms df.cols
          (zeroPass df.nrows zt (numericCols df)
            (idDupPass (idCols df)
              (highCardPass hct (categoricalCols df)
                (constantPass df.cols initResults)))))))

/-! ### The CLI's dictionary view of the results
(`src/homeworks/HW03/eda-cli/src/eda_cli/cli.py`) -/

/-- A value stored in the Python `results` dict. -/
inductive PyValue where
  | int : ℤ → PyValue
  | bool : Bool → PyValue
  | strs : List String → PyValue
  | highCard : List HighCardDetail → PyValue
  | dupInfo : List (String × DupIdInfo) → PyValue
  | zeroDet : List ZeroDetail → PyValue
  | outlierDet : List OutlierDetail → PyValue
  | imbDet : List ImbalanceDetail → PyValue
  | missDet : List MissingDetail → PyValue
deriving DecidableEq, Repr

/-- The key/value entries of the dict returned by `compute_quality_flags`, in
insertion order (`core.py` lines 52–73; no other key is ever inserted). -/
def resultsEntries (r : Results) : List (String × PyValue) :=
  [("quality_score", PyValue.int r.quality_score),
   ("has_constant_columns", PyValue.bool r.has_constant_columns),
   ("has_high_cardinality", PyValue.bool r.has_high_cardinality),
   ("has_id_duplicates", PyValue.bool r.has_id_duplicates),
   ("has_many_zeros", PyValue.bool r.has_many_zeros),
   ("has_outliers", PyValue.bool r.has_outliers),
   ("has_imbalanced_categories", PyValue.bool r.has_imbalanced_categories),
   ("constant_columns", PyValue.strs r.constant_columns),
   ("high_cardinality_cols", PyValue.strs r.high_cardinality_cols),
   ("high_cardinality_details", PyValue.highCard r.high_cardinality_details),
   ("duplicate_id_info", PyValue.dupInfo r.duplicate_id_info),
   ("zero_columns", PyValue.zeroDet r.zero_columns),
   ("outlier_columns", PyValue.outlierDet r.outlier_columns),
   ("imbalanced_columns", PyValue.imbDet r.imbalanced_columns),
   ("columns_with_missing", PyValue.missDet r.columns_with_missing),
   ("missing_count", PyValue.int (r.missing_count : ℤ)),
   ("duplicate_count", PyValue.int (r.duplicate_count : ℤ))]

/-- Python `dict.get(key, default)`. -/
def dictGet (entries : List (String × PyValue)) (key : String) (dflt : PyValue) : PyValue :=
  match entries.find? (fun e => e.1 == key) with
  | some e => e.2
  | none => dflt

/-- The value rendered by `cli.py` line 26 (and line 97 of the Markdown
report): `quality.get('has_missing', False)`. -/
def cliHasMissing (r : Results) : PyValue :=
  dictGet (resultsEntries r) "has_missing" (PyValue.bool false)

/-- The value rendered by `cli.py` line 27 (and line 99 of the Markdown
report): `quality.get('has_duplicates', False)`. -/
def cliHasDuplicates (r : Results) : PyValue :=
  dictGet (resultsEntries r) "has_duplicates" (PyValue.bool false)

/-- The value rendered by `cli.py` line 98: `quality.get('missing_count', 0)`. -/
def cliMissingCount (r : Results) : PyValue :=
  dictGet (resultsEntries r) "missing_count" (PyValue.int 0)

/-- The value rendered by `cli.py` line 100: `quality.get('duplicate_count', 0)`. -/
def cliDuplicateCount (r : Results) : PyValue :=
  dictGet (resultsEntries r) "duplicate_count" (PyValue.int 0)

/-! ### The HTTP endpoints
(`src/homeworks/HW04/eda-cli/src/eda_cli/api.py`)

The handlers are modelled as functions of the uploaded filename and the table
the CSV body parses to; alongside the HTTP outcome they return the trace of
side effects they perform (temporary-file creation, CSV loading, quality
computation, temporary-file deletion), so that "nothing was attempted" is the
empty trace. -/

/-- Python `s.endswith(post)`: the characters of `post` are a suffix of the
characters of `s`. -/
def pyEndsWith (s post : String) : Bool :=
  decide (post.toList <:+ s.toList)

/-- Python `int()` truncation toward zero. -/
def pyTrunc (q : ℚ) : ℤ :=
  if q < 0 then ⌈q⌉ else ⌊q⌋

/-- Response body of the `/quality` endpoint. -/
structure SimpleQuality where
  quality_score : ℤ
  ok_for_model : Bool
  too_few_rows : Bool
  too_many_missing : Bool
  too_many_duplicates : Bool
deriving DecidableEq, Repr

/-- The `/quality` endpoint (`api.py` lines 28–66). -/
def computeQuality (n_rows : ℕ) (missing_ratio duplicate_ratio : ℚ) : SimpleQuality :=
  let too_few_rows := decide (n_rows < 100)
  let too_many_missing := decide ((3:ℚ)/10 < missing_ratio)
  let too_many_duplicates := decide ((1:ℚ)/10 < duplicate_ratio)
  let s1 : ℤ := if too_few_rows then 100 - 20 else 100
  let s2 : ℤ := if too_many_missing then s1 - min (pyTrunc (missing_ratio * 100)) 40 else s1
  let s3 : ℤ :=
    if too_many_duplicates then s2 - min (pyTrunc (duplicate_ratio * 100)) 30 else s2
  { quality_score := s3
    ok_for_model := decide (70 ≤ s3)
    too_few_rows := too_few_rows
    too_many_missing := too_many_missing
    too_many_duplicates := too_many_duplicates }

/-- An observable side effect of a file-upload handler. -/
inductive ApiEffect where
  | createTempFile : ApiEffect
  | loadCsv : ApiEffect
  | computeQuality : ApiEffect
  | deleteTempFile : ApiEffect
deriving DecidableEq, Repr

/-- The `/quality-from-csv` endpoint (`api.py` lines 69–118): reject with HTTP
400 before any other action unless the filename ends in `.csv`; otherwise save
a temporary file, load it, compute the dataset metrics and delegate to
`/quality`. -/
def qualityFromCsv (filename : String) (df : Table) :
    Except ℕ SimpleQuality × List ApiEffect :=
  if pyEndsWith filename ".csv" then
    (Except.ok
      (computeQuality df.nrows
        (if 0 < df.nrows * df.cols.length then
          (missingCount df : ℚ) / ((df.nrows * df.cols.length : ℕ) : ℚ)
        else 0)
        (if 0 < df.nrows then (duplicateRowCount df : ℚ) / (df.nrows : ℚ) else 0)),
     [ApiEffect.createTempFile, ApiEffect.loadCsv, ApiEffect.computeQuality,
      ApiEffect.deleteTempFile])
  else (Except.error 400, [])

/-- The `/quality-flags-from-csv` endpoint (`api.py` lines 121–216): reject
with HTTP 400 before any other action unless the filename ends in `.csv`;
otherwise save a temporary file, load it and run `compute_quality_flags` with
the given thresholds (the outlier and imbalance thresholds keep their `core.py`
defaults 1.5 and 0.9). -/
def qualityFlagsFromCsv (filename : String) (df : Table) (hct : ℤ) (zt ms : ℚ) :
    Except ℕ Results × List ApiEffect :=
  if pyEndsWith filename ".csv" then
    (Except.ok (computeQualityFlags df hct zt ms (3/2) (9/10)),
     [ApiEffect.createTempFile, ApiEffect.loadCsv, ApiEffect.computeQuality,
      ApiEffect.deleteTempFile])
  else (Except.error 400, [])

/-! ### Concrete example tables (from the spec's test scenarios) -/

/-- The `id` column of the spec scenario `id=[1,2,1,4,5]`. -/
def wId : Column :=
  ⟨"id", ColKind.numeric, [Cell.num 1, Cell.num 2, Cell.num 1, Cell.num 4, Cell.num 5]⟩

/-- The `value` column of the spec scenario `value=[10,20,30,40,50]`. -/
def wValue : Column :=
  ⟨"value", ColKind.numeric,
   [Cell.num 10, Cell.num 20, Cell.num 30, Cell.num 40, Cell.num 50]⟩

/-- The spec's ID-duplicate scenario table. -/
def wTableId : Table := ⟨5, [wId, wValue]⟩

/-- The spec's zero-heavy numeric column `[0,0,0,0,0,0,0,1,2,3]`. -/
def wZeros : Column :=
  ⟨"zeros_high", ColKind.numeric,
   [Cell.num 0, Cell.num 0, Cell.num 0, Cell.num 0, Cell.num 0, Cell.num 0, Cell.num 0,
    Cell.num 1, Cell.num 2, Cell.num 3]⟩

/-- A 10-row table holding `wZeros`. -/
def wTableZeros : Table := ⟨10, [wZeros]⟩

/-- A categorical column with three distinct values. -/
def wCat : Column := ⟨"cat", ColKind.categorical, [Cell.str "a", Cell.str "b", Cell.str "c"]⟩

/-- A 3-row table holding `wCat`. -/
def wTableCat : Table := ⟨3, [wCat]⟩

/-- A column whose non-null values are all equal but that also contains a
null. -/
def wConst : Column := ⟨"konst", ColKind.numeric, [Cell.num 5, Cell.null, Cell.num 5]⟩

/-- A 3-row table holding `wConst`. -/
def wTableConst : Table := ⟨3, [wConst]⟩

/-! ### Characterizations of the seven passes -/

lemma constantPass_cons (c : Column) (cs : List Column) (r : Results) :
    constantPass (c :: cs) r =
      constantPass cs
        (if constantCheck c then
          { r with
            has_constant_columns := true
            constant_columns := r.constant_columns ++ [c.name]
            quality_score := r.quality_score - 10 }
        else r) := by
  by_cases h : constantCheck c <;> simp [constantPass, h]

lemma constantPass_eq (cols : List Column) (r : Results) :
    constantPass cols r =
      { r with
        has_constant_columns := r.has_constant_columns || cols.any constantCheck
        constant_columns := r.constant_columns ++ (cols.filter constantCheck).map Column.name
        quality_score := r.quality_score - 10 * (cols.countP constantCheck : ℤ) } := by
  induction cols generalizing r with
  | nil => simp [constantPass]
  | cons c cs ih =>
      rw [constantPass_cons]
      by_cases h : constantCheck c
      · rw [if_pos h, ih]
        simp [h, List.countP_cons, List.filter_cons, Results.mk.injEq]
        ring
      · rw [if_neg h, ih]
        simp [h, List.countP_cons, List.filter_cons, Results.mk.injEq]

lemma highCardPass_cons (hct : ℤ) (c : Column) (cs : List Column) (r : Results) :
    highCardPass hct (c :: cs) r =
      highCardPass hct cs
        (if highCardCheck hct c then
          { r with
            has_high_cardinality := true
            high_cardinality_cols := r.high_cardinality_cols ++ [c.name]
            high_cardinality_details := r.high_cardinality_details ++
              [{ column := c.name, unique_count := nunique c.cells, threshold := hct }]
            quality_score := r.quality_score - 5 }
        else r) := by
  by_cases h : highCardCheck hct c <;> simp [highCardPass, h]

lemma highCardPass_eq (hct : ℤ) (cols : List Column) (r : Results) :
    highCardPass hct cols r =
      { r with
        has_high_cardinality := r.has_high_cardinality || cols.any (highCardCheck hct)
        high_cardinality_cols := r.high_cardinality_cols ++
          (cols.filter (highCardCheck hct)).map Column.name
        high_cardinality_details := r.high_cardinality_details ++
          (cols.filter (highCardCheck hct)).map
            (fun c => { column := c.name, unique_count := nunique c.cells, threshold := hct })
        quality_score := r.quality_score - 5 * (cols.countP (highCardCheck hct) : ℤ) } := by
  induction cols generalizing r with
  | nil => simp [highCardPass]
  | cons c cs ih =>
      rw [highCardPass_cons]
      by_cases h : highCardCheck hct c
      · rw [if_pos h, ih]
        simp [h, List.countP_cons, List.filter_cons, Results.mk.injEq]
        ring
      · rw [if_neg h, ih]
        simp [h, List.countP_cons, List.filter_cons, Results.mk.injEq]

lemma idDupPass_cons (c : Column) (cs : List Column) (r : Results) :
    idDupPass (c :: cs) r =
      idDupPass cs
        (if idDupCheck c then
          { r with
            has_id_duplicates := true
            duplicate_id_info := r.duplicate_id_info ++
              [(c.name, { duplicate_count := duplicatedSum c.cells, total := c.cells.length })]
            quality_score := r.quality_score - 15 }
        else r) := by
  by_cases h : idDupCheck c <;> simp [idDupPass, h]

lemma idDupPass_eq (cols : List Column) (r : Results) :
    idDupPass cols r =
      { r with
        has_id_duplicates := r.has_id_duplicates || cols.any idDupCheck
        duplicate_id_info := r.duplicate_id_info ++
          (cols.filter idDupCheck).map
            (fun c => (c.name,
              { duplicate_count := duplicatedSum c.cells, total := c.cells.length }))
        quality_score := r.quality_score - 15 * (cols.countP idDupCheck : ℤ) } := by
  induction cols generalizing r with
  | nil => simp [idDupPass]
  | cons c cs ih =>
      rw [idDupPass_cons]
      by_cases h : idDupCheck c
      · rw [if_pos h, ih]
        simp [h, List.countP_cons, List.filter_cons, Results.mk.injEq]
        ring
      · rw [if_neg h, ih]
        simp [h, List.countP_cons, List.filter_cons, Results.mk.injEq]

lemma zeroPass_cons (nrows : ℕ) (zt : ℚ) (c : Column) (cs : List Column) (r : Results) :
    zeroPass nrows zt (c :: cs) r =
      zeroPass nrows zt cs
        (if zeroCheck nrows zt c then
          { r with
            has_many_zeros := true
            zero_columns := r.zero_columns ++
              [{ column := c.name, zero_ratio := zeroRatioOf nrows c, threshold := zt }]
            quality_score := r.quality_score - 8 }
        else r) := by
  by_cases h : zeroCheck nrows zt c <;> simp [zeroPass, h]

lemma zeroPass_eq (nrows : ℕ) (zt : ℚ) (cols : List Column) (r : Results) :
    zeroPass nrows zt cols r =
      { r with
        has_many_zeros := r.has_many_zeros || cols.any (zeroCheck nrows zt)
        zero_columns := r.zero_columns ++
          (cols.filter (zeroCheck nrows zt)).map
            (fun c => { column := c.name, zero_ratio := zeroRatioOf nrows c, threshold := zt })
        quality_score := r.quality_score - 8 * (cols.countP (zeroCheck nrows zt) : ℤ) } := by
  induction cols generalizing r with
  | nil => simp [zeroPass]
  | cons c cs ih =>
      rw [zeroPass_cons]
      by_cases h : zeroCheck nrows zt c
      · rw [if_pos h, ih]
        simp [h, List.countP_cons, List.filter_cons, Results.mk.injEq]
        ring
      · rw [if_neg h, ih]
        simp [h, List.countP_cons, List.filter_cons, Results.mk.injEq]

lemma missingPass_cons (nrows : ℕ) (ms : ℚ) (c : Column) (cs : List Column) (r : Results) :
    missingPass nrows ms (c :: cs) r =
      missingPass nrows ms cs
        (if missingCheck nrows ms c then
          { r with
            columns_with_missing := r.columns_with_missing ++
              [{ column := c.name, missing_ratio := missingRatioOf nrows c, threshold := ms }]
          }
        else r) := by
  by_cases h : missingCheck nrows ms c <;> simp [missingPass, h]

lemma missingPass_eq (nrows : ℕ) (ms : ℚ) (cols : List Column) (r : Results) :
    missingPass nrows ms cols r =
      { r with
        columns_with_missing := r.columns_with_missing ++
          (cols.filter (missingCheck nrows ms)).map
            (fun c =>
              { column := c.name, missing_ratio := missingRatioOf nrows c, threshold := ms })
      } := by
  induction cols generalizing r with
  | nil => simp [missingPass]
  | cons c cs ih =>
      rw [missingPass_cons]
      by_cases h : missingCheck nrows ms c
      · rw [if_pos h, ih]
        simp [h, List.filter_cons, Results.mk.injEq]
      · rw [if_neg h, ih]
        simp [h, List.filter_cons, Results.mk.injEq]

lemma outlierPass_cons (ot : ℚ) (c : Column) (cs : List Column) (r : Results) :
    outlierPass ot (c :: cs) r =
      outlierPass ot cs
        (match outlierCheck ot c with
        | some d =>
            { r with
              has_outliers := true
              outlier_columns := r.outlier_columns ++ [d]
              quality_score := r.quality_score - 7 }
        | none => r) := by
  cases h : outlierCheck ot c <;> simp [outlierPass, h]

lemma outlierPass_eq (ot : ℚ) (cols : List Column) (r : Results) :
    outlierPass ot cols r =
      { r with
        has_outliers := r.has_outliers || cols.any (fun c => (outlierCheck ot c).isSome)
        outlier_columns := r.outlier_columns ++ cols.filterMap (outlierCheck ot)
        quality_score := r.quality_score -
          7 * (cols.countP (fun c => (outlierCheck ot c).isSome) : ℤ) } := by
  induction cols generalizing r with
  | nil => simp [outlierPass]
  | cons c cs ih =>
      rw [outlierPass_cons]
      cases h : outlierCheck ot c with
      | some d =>
          rw [ih]
          simp [h, List.countP_cons, List.filterMap_cons, Results.mk.injEq]
          ring
      | none =>
          rw [ih]
          simp [h, List.countP_cons, List.filterMap_cons, Results.mk.injEq]

lemma imbalancePass_cons (it : ℚ) (c : Column) (cs : List Column) (r : Results) :
    imbalancePass it (c :: cs) r =
      imbalancePass it cs
        (match imbalanceCheck it c with
        | some d =>
            { r with
              has_imbalanced_categories := true
              imbalanced_columns := r.imbalanced_columns ++ [d]
              quality_score := r.quality_score - 6 }
        | none => r) := by
  cases h : imbalanceCheck it c <;> simp [imbalancePass, h]

lemma imbalancePass_eq (it : ℚ) (cols : List Column) (r : Results) :
    imbalancePass it cols r =
      { r with
        has_imbalanced_categories := r.has_imbalanced_categories ||
          cols.any (fun c => (imbalanceCheck it c).isSome)
        imbalanced_columns := r.imbalanced_columns ++ cols.filterMap (imbalanceCheck it)
        quality_score := r.quality_score -
          6 * (cols.countP (fun c => (imbalanceCheck it c).isSome) : ℤ) } := by
  induction cols generalizing r with
  | nil => simp [imbalancePass]
  | cons c cs ih =>
      rw [imbalancePass_cons]
      cases h : imbalanceCheck it c with
      | some d =>
          rw [ih]
          simp [h, List.countP_cons, List.filterMap_cons, Results.mk.injEq]
          ring
      | none =>
          rw [ih]
          simp [h, List.countP_cons, List.filterMap_cons, Results.mk.injEq]

/-- Closed form of the whole engine: every field of the returned `results`
dict, with the score as the clamped sum of the per-pass penalties. -/
lemma computeQualityFlags_eq (df : Table) (hct : ℤ) (zt ms ot it : ℚ) :
    computeQualityFlags df hct zt ms ot it =
      { quality_score := max 0 (min 100 (100
          - 10 * (df.cols.countP constantCheck : ℤ)
          - 5 * ((categoricalCols df).countP (highCardCheck hct) : ℤ)
          - 15 * ((idCols df).countP idDupCheck : ℤ)
          - 8 * ((numericCols df).countP (zeroCheck df.nrows zt) : ℤ)
          - 7 * ((numericCols df).countP (fun c => (outlierCheck ot c).isSome) : ℤ)
          - 6 * ((categoricalCols df).countP (fun c => (imbalanceCheck it c).isSome) : ℤ)))
        has_constant_columns := df.cols.any constantCheck
        has_high_cardinality := (categoricalCols df).any (highCardCheck hct)
        has_id_duplicates := (idCols df).any idDupCheck
        has_many_zeros := (numericCols df).any (zeroCheck df.nrows zt)
        has_outliers := (numericCols df).any (fun c => (outlierCheck ot c).isSome)
        has_imbalanced_categories :=
          (categoricalCols df).any (fun c => (imbalanceCheck it c).isSome)
        constant_columns := (df.cols.filter constantCheck).map Column.name
        high_cardinality_cols :=
          ((categoricalCols df).filter (highCardCheck hct)).map Column.name
        high_cardinality_details :=
          ((categoricalCols df).filter (highCardCheck hct)).map
            (fun c => { column := c.name, unique_count := nunique c.cells, threshold := hct })
        duplicate_id_info :=
          ((idCols df).filter idDupCheck).map
            (fun c => (c.name,
              { duplicate_count := duplicatedSum c.cells, total := c.cells.length }))
        zero_columns :=
          ((numericCols df).filter (zeroCheck df.nrows zt)).map
            (fun c => { column := c.name, zero_ratio := zeroRatioOf df.nrows c, threshold := zt })
        outlier_columns := (numericCols df).filterMap (outlierCheck ot)
        imbalanced_columns := (categoricalCols df).filterMap (imbalanceCheck it)
        columns_with_missing :=
          (df.cols.filter (missingCheck df.nrows ms)).map
            (fun c =>
              { column := c.name, missing_ratio := missingRatioOf df.nrows c, threshold := ms })
        missing_count := missingCount df
        duplicate_count := duplicateRowCount df } := by
  rw [computeQualityFlags, constantPass_eq, highCardPass_eq, idDupPass_eq, zeroPass_eq,
    missingPass_eq, outlierPass_eq, imbalancePass_eq, finalizeResults]
  simp only [initResults, Results.mk.injEq, List.nil_append, Bool.false_or, and_true, true_and]

/-! ### Counting helpers -/

lemma length_filterMap_eq_countP {α β : Type} (f : α → Option β) (l : List α) :
    (l.filterMap f).length = l.countP (fun a => (f a).isSome) := by
  induction l with
  | nil => simp
  | cons a l ih =>
      cases h : f a <;> simp [List.filterMap_cons, h, List.countP_cons, ih]

lemma dupFlags_count_add {α : Type} [DecidableEq α] (l : List α) (seen : List α) :
    (dupFlags seen l).count true + (l.toFinset \ seen.toFinset).card = l.length := by
  induction l generalizing seen with
  | nil => simp [dupFlags]
  | cons a l ih =>
      by_cases h : a ∈ seen
      · have hflag : dupFlags seen (a :: l) = true :: dupFlags (a :: seen) l := by
          simp [dupFlags, h]
        have hseen : (a :: seen).toFinset = seen.toFinset := by
          simp [List.toFinset_cons, Finset.insert_eq_self.mpr (List.mem_toFinset.mpr h)]
        have hih := ih (a :: seen)
        rw [hseen] at hih
        rw [hflag, List.count_cons_self, List.toFinset_cons,
          Finset.insert_sdiff_of_mem _ (List.mem_toFinset.mpr h), List.length_cons]
        omega
      · have hflag : dupFlags seen (a :: l) = false :: dupFlags (a :: seen) l := by
          simp [dupFlags, h]
        have hih := ih (a :: seen)
        have hins : l.toFinset \ (a :: seen).toFinset =
            (l.toFinset \ seen.toFinset).erase a := by
          rw [List.toFinset_cons, Finset.sdiff_insert]
        rw [hins] at hih
        rw [hflag, List.toFinset_cons, List.length_cons,
          Finset.insert_sdiff_of_not_mem _ (by simpa using h)]
        have hcnt : (false :: dupFlags (a :: seen) l).count true =
            (dupFlags (a :: seen) l).count true := by
          simp [List.count_cons]
        rw [hcnt]
        by_cases ha : a ∈ l.toFinset \ seen.toFinset
        · rw [Finset.insert_eq_self.mpr ha]
          have h1 := Finset.card_erase_of_mem ha
          have h2 : 1 ≤ (l.toFinset \ seen.toFinset).card := Finset.card_pos.mpr ⟨a, ha⟩
          omega
        · rw [Finset.card_insert_of_not_mem ha, Finset.erase_eq_self.mpr ha] at *
          omega

/-- Pandas identity behind the ID-duplicate count: the number of duplicated
occurrences plus the number of distinct values (nulls counted as one value)
is the column length. -/
lemma duplicatedSum_add_distinct {α : Type} [DecidableEq α] (l : List α) :
    duplicatedSum l + distinctCount l = l.length := by
  have := dupFlags_count_add l []
  simpa [duplicatedSum, distinctCount, List.card_toFinset] using this

lemma distinct_le_length {α : Type} [DecidableEq α] (l : List α) :
    distinctCount l ≤ l.length := by
  have := duplicatedSum_add_distinct l
  omega

lemma duplicatedSum_eq_sub {α : Type} [DecidableEq α] (l : List α) :
    duplicatedSum l = l.length - distinctCount l := by
  have := duplicatedSum_add_distinct l
  omega

lemma dedup_const {α : Type} [DecidableEq α] (a : α) (l : List α) (hne : l ≠ [])
    (hall : ∀ b ∈ l, b = a) : l.dedup = [a] := by
  induction l with
  | nil => exact absurd rfl hne
  | cons c cs ih =>
      have hca : c = a := hall c (List.mem_cons_self c cs)
      subst hca
      cases cs with
      | nil => simp
      | cons d ds =>
          have hcs : (d :: ds).dedup = [c] := by
            refine ih (by simp) ?_
            intro b hb
            exact hall b (List.mem_cons_of_mem _ hb)
          rw [List.dedup_cons_of_mem, hcs]
          have : d = c := hall d (by simp)
          simp [this]

/-! ### Quantile interpolation is monotone in the position -/

lemma sorted_getD_mono {s : List ℚ} (hs : List.Sorted (· ≤ ·) s) {a b : ℕ}
    (hab : a ≤ b) (hb : b < s.length) : s.getD a 0 ≤ s.getD b 0 := by
  have ha : a < s.length := Nat.lt_of_le_of_lt hab hb
  rw [List.getD_eq_getElem s 0 ha, List.getD_eq_getElem s 0 hb]
  have h2 : (⟨a, ha⟩ : Fin s.length) ≤ ⟨b, hb⟩ := hab
  have h3 := hs.rel_get_of_le h2
  simpa [List.get_eq_getElem] using h3

lemma interpAt_mono {s : List ℚ} (hs : List.Sorted (· ≤ ·) s) {h h' : ℚ}
    (h0 : 0 ≤ h) (hhh : h ≤ h') (hub : h' ≤ (s.length : ℚ) - 1) :
    interpAt s h ≤ interpAt s h' := by
  have h0' : (0:ℚ) ≤ h' := le_trans h0 hhh
  have hlenq : (1:ℚ) ≤ (s.length : ℚ) := by linarith
  have hlen : 1 ≤ s.length := by exact_mod_cast hlenq
  have hfl0 : (0:ℤ) ≤ ⌊h⌋ := Int.floor_nonneg.mpr h0
  have hfl0' : (0:ℤ) ≤ ⌊h'⌋ := Int.floor_nonneg.mpr h0'
  have hiq : ((⌊h⌋.toNat : ℕ) : ℚ) = ((⌊h⌋ : ℤ) : ℚ) := by
    exact_mod_cast congrArg (fun z : ℤ => (z : ℚ)) (Int.toNat_of_nonneg hfl0)
  have hjq : ((⌊h'⌋.toNat : ℕ) : ℚ) = ((⌊h'⌋ : ℤ) : ℚ) := by
    exact_mod_cast congrArg (fun z : ℤ => (z : ℚ)) (Int.toNat_of_nonneg hfl0')
  have hi_le : ((⌊h⌋.toNat : ℕ) : ℚ) ≤ h := by rw [hiq]; exact Int.floor_le h
  have hj_le : ((⌊h'⌋.toNat : ℕ) : ℚ) ≤ h' := by rw [hjq]; exact Int.floor_le h'
  have hi_lt1 : h < ((⌊h⌋.toNat : ℕ) : ℚ) + 1 := by
    rw [hiq]; exact_mod_cast Int.lt_floor_add_one h
  have hij : ⌊h⌋.toNat ≤ ⌊h'⌋.toNat := Int.toNat_le_toNat (Int.floor_le_floor hhh)
  have hjz : ⌊h'⌋ ≤ (s.length : ℤ) - 1 := by
    have : ((⌊h'⌋ : ℤ) : ℚ) ≤ (s.length : ℚ) - 1 := le_trans (Int.floor_le h') hub
    exact_mod_cast this
  have hjlen : ⌊h'⌋.toNat ≤ s.length - 1 := by
    rw [Int.toNat_le]
    omega
  have hjlt : ⌊h'⌋.toNat < s.length := by omega
  have hilt : ⌊h⌋.toNat < s.length := Nat.lt_of_le_of_lt hij hjlt
  have hi1lt : min (⌊h⌋.toNat + 1) (s.length - 1) < s.length := by omega
  have hj1lt : min (⌊h'⌋.toNat + 1) (s.length - 1) < s.length := by omega
  have hii1 : ⌊h⌋.toNat ≤ min (⌊h⌋.toNat + 1) (s.length - 1) := by omega
  have hjj1 : ⌊h'⌋.toNat ≤ min (⌊h'⌋.toNat + 1) (s.length - 1) := by omega
  have hd : 0 ≤ s.getD (min (⌊h⌋.toNat + 1) (s.length - 1)) 0 - s.getD ⌊h⌋.toNat 0 := by
    have := sorted_getD_mono hs hii1 hi1lt
    linarith
  have hd' : 0 ≤ s.getD (min (⌊h'⌋.toNat + 1) (s.length - 1)) 0 - s.getD ⌊h'⌋.toNat 0 := by
    have := sorted_getD_mono hs hjj1 hj1lt
    linarith
  rcases Nat.lt_or_ge ⌊h⌋.toNat ⌊h'⌋.toNat with hlt | hge
  · have hi1j : min (⌊h⌋.toNat + 1) (s.length - 1) ≤ ⌊h'⌋.toNat := by omega
    have hup : interpAt s h ≤ s.getD (min (⌊h⌋.toNat + 1) (s.length - 1)) 0 := by
      have hmul : (h - ((⌊h⌋.toNat : ℕ) : ℚ)) *
          (s.getD (min (⌊h⌋.toNat + 1) (s.length - 1)) 0 - s.getD ⌊h⌋.toNat 0) ≤
          1 * (s.getD (min (⌊h⌋.toNat + 1) (s.length - 1)) 0 - s.getD ⌊h⌋.toNat 0) :=
        mul_le_mul_of_nonneg_right (by linarith) hd
      simp only [interpAt]
      linarith
    have hmid : s.getD (min (⌊h⌋.toNat + 1) (s.length - 1)) 0 ≤ s.getD ⌊h'⌋.toNat 0 :=
      sorted_getD_mono hs hi1j hjlt
    have hlow : s.getD ⌊h'⌋.toNat 0 ≤ interpAt s h' := by
      have hmul : 0 ≤ (h' - ((⌊h'⌋.toNat : ℕ) : ℚ)) *
          (s.getD (min (⌊h'⌋.toNat + 1) (s.length - 1)) 0 - s.getD ⌊h'⌋.toNat 0) :=
        mul_nonneg (by linarith) hd'
      simp only [interpAt]
      linarith
    linarith
  · have heq : ⌊h⌋.toNat = ⌊h'⌋.toNat := le_antisymm hij hge
    simp only [interpAt, ← heq]
    have hmul : (h - ((⌊h⌋.toNat : ℕ) : ℚ)) *
        (s.getD (min (⌊h⌋.toNat + 1) (s.length - 1)) 0 - s.getD ⌊h⌋.toNat 0) ≤
        (h' - ((⌊h⌋.toNat : ℕ) : ℚ)) *
        (s.getD (min (⌊h⌋.toNat + 1) (s.length - 1)) 0 - s.getD ⌊h⌋.toNat 0) :=
      mul_le_mul_of_nonneg_right (by linarith) hd
    linarith

/-- For a nonempty value list the first quartile never exceeds the third, so
the code's guard `iqr > 0` coincides with the spec's `iqr ≠ 0`. -/
lemma quantile_q1_le_q3 (l : List ℚ) (hl : l ≠ []) :
    quantile l (1/4) ≤ quantile l (3/4) := by
  have hlen : 1 ≤ l.length := List.length_pos.mpr hl
  have hlenq : (1:ℚ) ≤ (l.length : ℚ) := by exact_mod_cast hlen
  have hs := List.sorted_insertionSort (· ≤ ·) l
  have hlens : (List.insertionSort (· ≤ ·) l).length = l.length :=
    List.length_insertionSort (· ≤ ·) l
  have h1 : (0:ℚ) ≤ 1/4 * ((l.length : ℚ) - 1) := by
    apply mul_nonneg (by norm_num)
    linarith
  have h2 : 1/4 * ((l.length : ℚ) - 1) ≤ 3/4 * ((l.length : ℚ) - 1) := by
    apply mul_le_mul_of_nonneg_right (by norm_num)
    linarith
  have h3 : 3/4 * ((l.length : ℚ) - 1) ≤ ((List.insertionSort (· ≤ ·) l).length : ℚ) - 1 := by
    rw [hlens]
    nlinarith
  exact interpAt_mono hs h1 h2 h3

/-! ### Membership helpers for per-column report statements -/

lemma nodup_names_filter (p : Column → Bool) {cols : List Column}
    (h : (cols.map Column.name).Nodup) : ((cols.filter p).map Column.name).Nodup :=
  ((List.filter_sublist cols).map Column.name).nodup h

lemma mem_map_filter_name {p : Column → Bool} {cols : List Column} {col : Column}
    (hmem : col ∈ cols) (hnodup : (cols.map Column.name).Nodup) :
    (col.name ∈ (cols.filter p).map Column.name) ↔ p col = true := by
  constructor
  · intro h
    obtain ⟨c', hc', hname⟩ := List.mem_map.mp h
    obtain ⟨hc'mem, hp⟩ := List.mem_filter.mp hc'
    have hcc : c' = col := List.inj_on_of_nodup_map hnodup hc'mem hmem hname
    rwa [← hcc]
  · intro hp
    exact List.mem_map.mpr ⟨col, List.mem_filter.mpr ⟨hmem, hp⟩, rfl⟩

lemma exists_map_filter_iff {β : Type} {p : Column → Bool} (f : Column → β) (g : β → String)
    (hg : ∀ c, g (f c) = c.name) {cols : List Column} {col : Column}
    (hmem : col ∈ cols) (hnodup : (cols.map Column.name).Nodup) :
    (∃ d ∈ (cols.filter p).map f, g d = col.name) ↔ p col = true := by
  constructor
  · rintro ⟨d, hd, hgd⟩
    obtain ⟨c', hc', rfl⟩ := List.mem_map.mp hd
    obtain ⟨hc'mem, hp⟩ := List.mem_filter.mp hc'
    rw [hg c'] at hgd
    have hcc : c' = col := List.inj_on_of_nodup_map hnodup hc'mem hmem hgd
    rwa [← hcc]
  · intro hp
    exact ⟨f col, List.mem_map.mpr ⟨col, List.mem_filter.mpr ⟨hmem, hp⟩, rfl⟩, hg col⟩

lemma map_filter_unique_value {β : Type} {p : Column → Bool} (f : Column → β) (g : β → String)
    (hg : ∀ c, g (f c) = c.name) {cols : List Column} {col : Column}
    (hmem : col ∈ cols) (hnodup : (cols.map Column.name).Nodup) :
    ∀ d ∈ (cols.filter p).map f, g d = col.name → d = f col := by
  intro d hd hgd
  obtain ⟨c', hc', rfl⟩ := List.mem_map.mp hd
  obtain ⟨hc'mem, _⟩ := List.mem_filter.mp hc'
  rw [hg c'] at hgd
  have hcc : c' = col := List.inj_on_of_nodup_map hnodup hc'mem hmem hgd
  rw [hcc]

lemma exists_filterMap_iff {β : Type} (F : Column → Option β) (g : β → String)
    (hF : ∀ c d, F c = some d → g d = c.name) {cols : List Column} {col : Column}
    (hmem : col ∈ cols) (hnodup : (cols.map Column.name).Nodup) :
    (∃ d ∈ cols.filterMap F, g d = col.name) ↔ (F col).isSome = true := by
  constructor
  · rintro ⟨d, hd, hgd⟩
    obtain ⟨c', hc'mem, hFc'⟩ := List.mem_filterMap.mp hd
    rw [hF c' d hFc'] at hgd
    have hcc : c' = col := List.inj_on_of_nodup_map hnodup hc'mem hmem hgd
    rw [← hcc, hFc']
    rfl
  · intro hp
    obtain ⟨d, hd⟩ := Option.isSome_iff_exists.mp hp
    exact ⟨d, List.mem_filterMap.mpr ⟨col, hmem, hd⟩, hF col d hd⟩

lemma mem_categoricalCols {df : Table} {col : Column} (hmem : col ∈ df.cols)
    (hkind : col.kind = ColKind.categorical) : col ∈ categoricalCols df :=
  List.mem_filter.mpr ⟨hmem, by simp [hkind]⟩

lemma mem_numericCols {df : Table} {col : Column} (hmem : col ∈ df.cols)
    (hkind : col.kind = ColKind.numeric) : col ∈ numericCols df :=
  List.mem_filter.mpr ⟨hmem, by simp [hkind]⟩

lemma mem_idCols {df : Table} {col : Column} (hmem : col ∈ df.cols)
    (hid : isIdColumn col.name = true) : col ∈ idCols df :=
  List.mem_filter.mpr ⟨hmem, hid⟩

lemma nodup_categoricalCols {df : Table} (h : (df.cols.map Column.name).Nodup) :
    ((categoricalCols df).map Column.name).Nodup :=
  nodup_names_filter _ h

lemma nodup_numericCols {df : Table} (h : (df.cols.map Column.name).Nodup) :
    ((numericCols df).map Column.name).Nodup :=
  nodup_names_filter _ h

lemma nodup_idCols {df : Table} (h : (df.cols.map Column.name).Nodup) :
    ((idCols df).map Column.name).Nodup :=
  nodup_names_filter _ h

lemma not_isNull_iff (c : Cell) : (!isNull c) = true ↔ c ≠ Cell.null := by
  cases c <;> simp [isNull]

lemma outlierCheck_column (ot : ℚ) (c : Column) (d : OutlierDetail)
    (h : outlierCheck ot c = some d) : d.column = c.name := by
  simp only [outlierCheck] at h
  split_ifs at h
  · injection h with h'
    rw [← h']

/-- The IQR outlier pass fires on a column exactly when the column has at
least 10 non-null numeric values, a strictly positive interquartile range,
and an outlier ratio strictly above the fixed literal `0.05`. -/
lemma outlierCheck_isSome_iff (ot : ℚ) (c : Column) :
    (outlierCheck ot c).isSome = true ↔
      10 ≤ (toNums c.cells).length ∧
      0 < quantile (toNums c.cells) (3/4) - quantile (toNums c.cells) (1/4) ∧
      1/20 < outlierRatio ot c := by
  simp only [outlierCheck]
  split_ifs with h1 h2 h3
  · exact iff_of_false (by simp) (by rintro ⟨hA, h1, h2⟩; omega)
  · exact iff_of_true (by simp) ⟨Nat.not_lt.mp h1, h2, h3⟩
  · exact iff_of_false (by simp) (by rintro ⟨h1, h2, hC⟩; exact h3 hC)
  · exact iff_of_false (by simp) (by rintro ⟨h1, hB, h3⟩; exact h2 hB)

/-! ### The claims -/

/-- Claim C1: the quality score returned by `compute_quality_flags` equals
100 minus 10 per constant column, 5 per flagged high-cardinality categorical
column, 15 per flagged identifier column with duplicates, 8 per flagged
zero-heavy numeric column, 7 per flagged outlier column and 6 per flagged
imbalanced categorical column, clamped to `[0, 100]`; the per-column
missing-share pass contributes no penalty of its own (second conjunct).  The
result is a total Lean function of the table and thresholds, hence pure and
deterministic. -/
theorem quality_score_closed_form (df : Table) (hct : ℤ) (zt ms ot it : ℚ) :
    (computeQualityFlags df hct zt ms ot it).quality_score =
      max 0 (min 100 (100
        - 10 * ((computeQualityFlags df hct zt ms ot it).constant_columns.length : ℤ)
        - 5 * ((computeQualityFlags df hct zt ms ot it).high_cardinality_cols.length : ℤ)
        - 15 * ((computeQualityFlags df hct zt ms ot it).duplicate_id_info.length : ℤ)
        - 8 * ((computeQualityFlags df hct zt ms ot it).zero_columns.length : ℤ)
        - 7 * ((computeQualityFlags df hct zt ms ot it).outlier_columns.length : ℤ)
        - 6 * ((computeQualityFlags df hct zt ms ot it).imbalanced_columns.length : ℤ)))
    ∧ ∀ (nrows : ℕ) (ms' : ℚ) (cols : List Column) (r : Results),
        (missingPass nrows ms' cols r).quality_score = r.quality_score := by
  constructor
  · rw [computeQualityFlags_eq]
    simp only [List.length_map, ← List.countP_eq_length_filter, length_filterMap_eq_countP]
  · intro nrows ms' cols r
    rw [missingPass_eq]

/-- Claim C2: for every table and configuration the returned `quality_score`
is an integer in the inclusive range `[0, 100]`. -/
theorem quality_score_in_range (df : Table) (hct : ℤ) (zt ms ot it : ℚ) :
    0 ≤ (computeQualityFlags df hct zt ms ot it).quality_score ∧
      (computeQualityFlags df hct zt ms ot it).quality_score ≤ 100 := by
  rw [computeQualityFlags_eq]
  exact ⟨le_max_left 0 _, max_le (by norm_num) (min_le_left _ _)⟩

/-- Claim C3: for a table with zero rows (with or without columns) and
non-negative thresholds, `compute_quality_flags` returns exactly the initial
"no findings" report — score 100, all findings lists empty, all flags false,
`missing_count` and `duplicate_count` 0 — and every guarded ratio with a zero
denominator evaluates to 0 rather than faulting. -/
theorem empty_table_report (df : Table) (hct : ℤ) (zt ms ot it : ℚ)
    (hrows : df.nrows = 0) (hwf : df.WF)
    (hhct : 0 ≤ hct) (hzt : 0 ≤ zt) (hms : 0 ≤ ms) :
    computeQualityFlags df hct zt ms ot it = initResults ∧
    (computeQualityFlags df hct zt ms ot it).quality_score = 100 ∧
    (computeQualityFlags df hct zt ms ot it).missing_count = 0 ∧
    (computeQualityFlags df hct zt ms ot it).duplicate_count = 0 ∧
    (∀ k : ℕ, safeRatio k 0 = 0) := by
  have hcells : ∀ c ∈ df.cols, c.cells = [] := by
    intro c hc
    exact List.length_eq_zero.mp (by rw [hwf c hc, hrows])
  have hsub : ∀ {p : Column → Bool} (c : Column), c ∈ df.cols.filter p → c ∈ df.cols := by
    intro p c hc
    exact (List.mem_filter.mp hc).1
  have hnu : ∀ c ∈ df.cols, nunique c.cells = 0 := by
    intro c hc
    simp [nunique, nonNullCells, hcells c hc]
  have hconst : ∀ c ∈ df.cols, constantCheck c = false := by
    intro c hc
    simp [constantCheck, hnu c hc]
  have hhc : ∀ c ∈ categoricalCols df, highCardCheck hct c = false := by
    intro c hc
    simp only [highCardCheck, hnu c (hsub c hc), decide_eq_false_iff_not]
    omega
  have hid : ∀ c ∈ idCols df, idDupCheck c = false := by
    intro c hc
    simp [idDupCheck, duplicatedAny, hcells c (hsub c hc), dupFlags]
  have hzero : ∀ c ∈ numericCols df, zeroCheck df.nrows zt c = false := by
    intro c hc
    simp only [zeroCheck, zeroRatioOf, safeRatio, hrows, lt_irrefl, if_false,
      decide_eq_false_iff_not, not_lt]
    exact hzt
  have hmiss : ∀ c ∈ df.cols, missingCheck df.nrows ms c = false := by
    intro c hc
    simp only [missingCheck, missingRatioOf, safeRatio, hrows, lt_irrefl, if_false,
      decide_eq_false_iff_not, not_lt]
    exact hms
  have hout : ∀ c ∈ numericCols df, outlierCheck ot c = none := by
    intro c hc
    have h0 : toNums c.cells = [] := by simp [toNums, hcells c (hsub c hc)]
    simp [outlierCheck, h0]
  have himb : ∀ c ∈ categoricalCols df, imbalanceCheck it c = none := by
    intro c hc
    simp [imbalanceCheck, nonNullCells, hcells c (hsub c hc)]
  have hmc : missingCount df = 0 := by
    apply List.sum_eq_zero
    intro x hx
    obtain ⟨c, hcm, rfl⟩ := List.mem_map.mp hx
    simp [List.countP_eq_zero, hcells c hcm]
  have hdc : duplicateRowCount df = 0 := by
    simp [duplicateRowCount, tableRows, hrows, duplicatedSum, dupFlags]
  have hmain : computeQualityFlags df hct zt ms ot it = initResults := by
    rw [computeQualityFlags_eq]
    have e1 : df.cols.countP constantCheck = 0 :=
      List.countP_eq_zero.mpr (fun a ha => by simp [hconst a ha])
    have e2 : (categoricalCols df).countP (highCardCheck hct) = 0 :=
      List.countP_eq_zero.mpr (fun a ha => by simp [hhc a ha])
    have e3 : (idCols df).countP idDupCheck = 0 :=
      List.countP_eq_zero.mpr (fun a ha => by simp [hid a ha])
    have e4 : (numericCols df).countP (zeroCheck df.nrows zt) = 0 :=
      List.countP_eq_zero.mpr (fun a ha => by simp [hzero a ha])
    have e5 : (numericCols df).countP (fun c => (outlierCheck ot c).isSome) = 0 :=
      List.countP_eq_zero.mpr (fun a ha => by simp [hout a ha])
    have e6 : (categoricalCols df).countP (fun c => (imbalanceCheck it c).isSome) = 0 :=
      List.countP_eq_zero.mpr (fun a ha => by simp [himb a ha])
    have f1 : df.cols.filter constantCheck = [] :=
      List.filter_eq_nil_iff.mpr (fun a ha => by simp [hconst a ha])
    have f2 : (categoricalCols df).filter (highCardCheck hct) = [] :=
      List.filter_eq_nil_iff.mpr (fun a ha => by simp [hhc a ha])
    have f3 : (idCols df).filter idDupCheck = [] :=
      List.filter_eq_nil_iff.mpr (fun a ha => by simp [hid a ha])
    have f4 : (numericCols df).filter (zeroCheck df.nrows zt) = [] :=
      List.filter_eq_nil_iff.mpr (fun a ha => by simp [hzero a ha])
    have f5 : df.cols.filter (missingCheck df.nrows ms) = [] :=
      List.filter_eq_nil_iff.mpr (fun a ha => by simp [hmiss a ha])
    have g1 : (numericCols df).filterMap (outlierCheck ot) = [] :=
      List.filterMap_eq_nil_iff.mpr hout
    have g2 : (categoricalCols df).filterMap (imbalanceCheck it) = [] :=
      List.filterMap_eq_nil_iff.mpr himb
    have a1 : df.cols.any constantCheck = false :=
      List.any_eq_false.mpr (fun a ha => by simp [hconst a ha])
    have a2 : (categoricalCols df).any (highCardCheck hct) = false :=
      List.any_eq_false.mpr (fun a ha => by simp [hhc a ha])
    have a3 : (idCols df).any idDupCheck = false :=
      List.any_eq_false.mpr (fun a ha => by simp [hid a ha])
    have a4 : (numericCols df).any (zeroCheck df.nrows zt) = false :=
      List.any_eq_false.mpr (fun a ha => by simp [hzero a ha])
    have a5 : (numericCols df).any (fun c => (outlierCheck ot c).isSome) = false :=
      List.any_eq_false.mpr (fun a ha => by simp [hout a ha])
    have a6 : (categoricalCols df).any (fun c => (imbalanceCheck it c).isSome) = false :=
      List.any_eq_false.mpr (fun a ha => by simp [himb a ha])
    rw [e1, e2, e3, e4, e5, e6, f1, f2, f3, f4, f5, g1, g2, a1, a2, a3, a4, a5, a6, hmc, hdc]
    simp [initResults]
  refine ⟨hmain, ?_, ?_, ?_, ?_⟩
  · rw [hmain]
    rfl
  · rw [hmain]
    rfl
  · rw [hmain]
    rfl
  · intro k
    simp [safeRatio]

/-- Witness for claim C3 on a concrete zero-row table with one column. -/
theorem empty_table_report_witness :
    computeQualityFlags ⟨0, [⟨"x", ColKind.numeric, []⟩]⟩ 50 (3/10) (1/10) (3/2) (9/10) =
      initResults ∧
    (computeQualityFlags ⟨0, [⟨"x", ColKind.numeric, []⟩]⟩ 50 (3/10) (1/10) (3/2)
      (9/10)).quality_score = 100 ∧
    (computeQualityFlags ⟨0, [⟨"x", ColKind.numeric, []⟩]⟩ 50 (3/10) (1/10) (3/2)
      (9/10)).missing_count = 0 ∧
    (computeQualityFlags ⟨0, [⟨"x", ColKind.numeric, []⟩]⟩ 50 (3/10) (1/10) (3/2)
      (9/10)).duplicate_count = 0 ∧
    (∀ k : ℕ, safeRatio k 0 = 0) :=
  empty_table_report ⟨0, [⟨"x", ColKind.numeric, []⟩]⟩ 50 (3/10) (1/10) (3/2) (9/10)
    rfl (by intro c hc; simp at hc; subst hc; rfl) (by norm_num) (by norm_num) (by norm_num)

/-- Claim C4: an identifier-named column with at least one repeated value
makes `has_id_duplicates` true, records an entry whose duplicate count equals
`row_count − distinct_count` (distinct values counted with nulls identified,
as pandas `duplicated` does) together with the total row count, and the ID
pass subtracts 15 per flagged column. -/
theorem id_duplicate_count_formula (df : Table) (col : Column) (hct : ℤ)
    (zt ms ot it : ℚ) (hmem : col ∈ df.cols) (hid : isIdColumn col.name = true)
    (hdup : duplicatedAny col.cells = true) (hlen : col.cells.length = df.nrows) :
    (computeQualityFlags df hct zt ms ot it).has_id_duplicates = true ∧
    (col.name,
      { duplicate_count := df.nrows - distinctCount col.cells, total := df.nrows })
      ∈ (computeQualityFlags df hct zt ms ot it).duplicate_id_info ∧
    ∀ (cols : List Column) (r : Results),
      (idDupPass cols r).quality_score =
        r.quality_score - 15 * (cols.countP idDupCheck : ℤ) := by
  have hmemid : col ∈ idCols df := mem_idCols hmem hid
  have hcheck : idDupCheck col = true := hdup
  refine ⟨?_, ?_, ?_⟩
  · simp only [computeQualityFlags_eq]
    exact List.any_eq_true.mpr ⟨col, hmemid, hcheck⟩
  · simp only [computeQualityFlags_eq]
    have hpair : (col.name,
        ({ duplicate_count := duplicatedSum col.cells,
           total := col.cells.length } : DupIdInfo)) =
        (col.name,
          { duplicate_count := df.nrows - distinctCount col.cells, total := df.nrows }) := by
      rw [duplicatedSum_eq_sub, hlen]
    exact List.mem_map.mpr ⟨col, List.mem_filter.mpr ⟨hmemid, hcheck⟩, hpair⟩
  · intro cols r
    rw [idDupPass_eq]

/-- Witness for claim C4 on the spec scenario `id=[1,2,1,4,5]`,
`value=[10,20,30,40,50]`. -/
theorem id_duplicate_count_formula_witness :
    (computeQualityFlags wTableId 50 (3/10) (1/10) (3/2) (9/10)).has_id_duplicates = true ∧
    (wId.name,
      { duplicate_count := wTableId.nrows - distinctCount wId.cells,
        total := wTableId.nrows })
      ∈ (computeQualityFlags wTableId 50 (3/10) (1/10) (3/2) (9/10)).duplicate_id_info ∧
    ∀ (cols : List Column) (r : Results),
      (idDupPass cols r).quality_score =
        r.quality_score - 15 * (cols.countP idDupCheck : ℤ) :=
  id_duplicate_count_formula wTableId wId 50 (3/10) (1/10) (3/2) (9/10)
    (by decide) (by decide) (by decide) rfl

/-- Claim C5: the IQR outlier pass skips a numeric column with fewer than 10
non-null values and a column whose interquartile range is zero; otherwise it
flags the column exactly when the count of values strictly outside the Tukey
fences, divided by the column length, strictly exceeds the fixed,
non-configurable literal `0.05`, and the pass subtracts 7 per flagged
column. -/
theorem outlier_pass_conditions (df : Table) (col : Column) (hct : ℤ)
    (zt ms ot it : ℚ) (hmem : col ∈ df.cols) (hkind : col.kind = ColKind.numeric)
    (hnodup : (df.cols.map Column.name).Nodup) :
    ((toNums col.cells).length < 10 →
      ¬ ∃ d ∈ (computeQualityFlags df hct zt ms ot it).outlier_columns,
          d.column = col.name) ∧
    (quantile (toNums col.cells) (3/4) - quantile (toNums col.cells) (1/4) = 0 →
      ¬ ∃ d ∈ (computeQualityFlags df hct zt ms ot it).outlier_columns,
          d.column = col.name) ∧
    (10 ≤ (toNums col.cells).length →
      quantile (toNums col.cells) (3/4) - quantile (toNums col.cells) (1/4) ≠ 0 →
      ((∃ d ∈ (computeQualityFlags df hct zt ms ot it).outlier_columns,
          d.column = col.name) ↔ 1/20 < outlierRatio ot col)) ∧
    ∀ (cols : List Column) (r : Results),
      (outlierPass ot cols r).quality_score =
        r.quality_score - 7 * (cols.countP (fun c => (outlierCheck ot c).isSome) : ℤ) := by
  have hmemn : col ∈ numericCols df := mem_numericCols hmem hkind
  have hnodn := nodup_numericCols hnodup
  have key : (∃ d ∈ (computeQualityFlags df hct zt ms ot it).outlier_columns,
      d.column = col.name) ↔ (outlierCheck ot col).isSome = true := by
    simp only [computeQualityFlags_eq]
    exact exists_filterMap_iff (outlierCheck ot) OutlierDetail.column
      (fun c d h => outlierCheck_column ot c d h) hmemn hnodn
  refine ⟨?_, ?_, ?_, ?_⟩
  · intro hlt hex
    have h := (outlierCheck_isSome_iff ot col).mp (key.mp hex)
    omega
  · intro hiqr hex
    have h := (outlierCheck_isSome_iff ot col).mp (key.mp hex)
    rw [hiqr] at h
    exact lt_irrefl 0 h.2.1
  · intro hlen hiqr
    have hnn : toNums col.cells ≠ [] := by
      intro hnil
      rw [hnil] at hlen
      simp at hlen
    have hq := quantile_q1_le_q3 (toNums col.cells) hnn
    have hpos : 0 < quantile (toNums col.cells) (3/4) - quantile (toNums col.cells) (1/4) :=
      lt_of_le_of_ne (by linarith) (Ne.symm hiqr)
    rw [key, outlierCheck_isSome_iff]
    constructor
    · rintro ⟨h1, h2, h⟩
      exact h
    · intro h
      exact ⟨hlen, hpos, h⟩
  · intro cols r
    rw [outlierPass_eq]

/-- Witness for claim C5 on a 10-value numeric column with a positive
interquartile range. -/
theorem outlier_pass_conditions_witness :
    ((toNums wZeros.cells).length < 10 →
      ¬ ∃ d ∈ (computeQualityFlags wTableZeros 50 (3/10) (1/10) (3/2) (9/10)).outlier_columns,
          d.column = wZeros.name) ∧
    (quantile (toNums wZeros.cells) (3/4) - quantile (toNums wZeros.cells) (1/4) = 0 →
      ¬ ∃ d ∈ (computeQualityFlags wTableZeros 50 (3/10) (1/10) (3/2) (9/10)).outlier_columns,
          d.column = wZeros.name) ∧
    (10 ≤ (toNums wZeros.cells).length →
      quantile (toNums wZeros.cells) (3/4) - quantile (toNums wZeros.cells) (1/4) ≠ 0 →
      ((∃ d ∈ (computeQualityFlags wTableZeros 50 (3/10) (1/10) (3/2) (9/10)).outlier_columns,
          d.column = wZeros.name) ↔ (1/20 : ℚ) < outlierRatio (3/2) wZeros)) ∧
    ∀ (cols : List Column) (r : Results),
      (outlierPass (3/2) cols r).quality_score =
        r.quality_score - 7 * (cols.countP (fun c => (outlierCheck (3/2) c).isSome) : ℤ) :=
  outlier_pass_conditions wTableZeros wZeros 50 (3/10) (1/10) (3/2) (9/10)
    (by decide) rfl (by decide)

/-- Claim C6: a numeric column is flagged by the zero-prevalence pass exactly
when its zero ratio strictly exceeds `zero_threshold` — a ratio exactly equal
to the threshold is NOT flagged — the recorded detail carries that ratio and
threshold, and the pass subtracts 8 per flagged column. -/
theorem zero_ratio_strict_threshold (df : Table) (col : Column) (hct : ℤ)
    (zt ms ot it : ℚ) (hmem : col ∈ df.cols) (hkind : col.kind = ColKind.numeric)
    (hnodup : (df.cols.map Column.name).Nodup) :
    ((∃ d ∈ (computeQualityFlags df hct zt ms ot it).zero_columns,
        d.column = col.name) ↔ zt < zeroRatioOf df.nrows col) ∧
    (zeroRatioOf df.nrows col = zt →
      ¬ ∃ d ∈ (computeQualityFlags df hct zt ms ot it).zero_columns,
          d.column = col.name) ∧
    (∀ d ∈ (computeQualityFlags df hct zt ms ot it).zero_columns, d.column = col.name →
      d = { column := col.name, zero_ratio := zeroRatioOf df.nrows col, threshold := zt }) ∧
    ∀ (cols : List Column) (r : Results),
      (zeroPass df.nrows zt cols r).quality_score =
        r.quality_score - 8 * (cols.countP (zeroCheck df.nrows zt) : ℤ) := by
  have hmemn : col ∈ numericCols df := mem_numericCols hmem hkind
  have hnodn := nodup_numericCols hnodup
  have key : (∃ d ∈ (computeQualityFlags df hct zt ms ot it).zero_columns,
      d.column = col.name) ↔ zeroCheck df.nrows zt col = true := by
    simp only [computeQualityFlags_eq]
    exact exists_map_filter_iff
      (fun c => { column := c.name, zero_ratio := zeroRatioOf df.nrows c, threshold := zt })
      ZeroDetail.column (fun c => rfl) hmemn hnodn
  refine ⟨?_, ?_, ?_, ?_⟩
  · rw [key]
    simp [zeroCheck]
  · intro heq hex
    have hlt : zt < zeroRatioOf df.nrows col := by
      have := key.mp hex
      simpa [zeroCheck] using this
    rw [heq] at hlt
    exact lt_irrefl zt hlt
  · simp only [computeQualityFlags_eq]
    intro d hd hdname
    exact map_filter_unique_value
      (fun c => { column := c.name, zero_ratio := zeroRatioOf df.nrows c, threshold := zt })
      ZeroDetail.column (fun c => rfl) hmemn hnodn d hd hdname
  · intro cols r
    rw [zeroPass_eq]

/-- Witness for claim C6 on the spec scenario `[0,0,0,0,0,0,0,1,2,3]` with
`zero_threshold = 0.5`. -/
theorem zero_ratio_strict_threshold_witness :
    ((∃ d ∈ (computeQualityFlags wTableZeros 50 (1/2) (1/10) (3/2) (9/10)).zero_columns,
        d.column = wZeros.name) ↔ (1/2 : ℚ) < zeroRatioOf wTableZeros.nrows wZeros) ∧
    (zeroRatioOf wTableZeros.nrows wZeros = 1/2 →
      ¬ ∃ d ∈ (computeQualityFlags wTableZeros 50 (1/2) (1/10) (3/2) (9/10)).zero_columns,
          d.column = wZeros.name) ∧
    (∀ d ∈ (computeQualityFlags wTableZeros 50 (1/2) (1/10) (3/2) (9/10)).zero_columns,
      d.column = wZeros.name →
      d = { column := wZeros.name, zero_ratio := zeroRatioOf wTableZeros.nrows wZeros,
            threshold := 1/2 }) ∧
    ∀ (cols : List Column) (r : Results),
      (zeroPass wTableZeros.nrows (1/2) cols r).quality_score =
        r.quality_score - 8 * (cols.countP (zeroCheck wTableZeros.nrows (1/2)) : ℤ) :=
  zero_ratio_strict_threshold wTableZeros wZeros 50 (1/2) (1/10) (3/2) (9/10)
    (by decide) rfl (by decide)

/-- Claim C7: a categorical column is reported in `high_cardinality_cols`
exactly when its distinct-value count strictly exceeds
`high_cardinality_threshold`; the flag is antitone in the threshold, true for
every threshold strictly below the distinct count and false for every
threshold at or above it. -/
theorem high_cardinality_strict_monotone (df : Table) (col : Column) (hct : ℤ)
    (zt ms ot it : ℚ) (hmem : col ∈ df.cols) (hkind : col.kind = ColKind.categorical)
    (hnodup : (df.cols.map Column.name).Nodup) :
    (col.name ∈ (computeQualityFlags df hct zt ms ot it).high_cardinality_cols ↔
      hct < (nunique col.cells : ℤ)) ∧
    (∀ t t' : ℤ, t' ≤ t →
      col.name ∈ (computeQualityFlags df t zt ms ot it).high_cardinality_cols →
      col.name ∈ (computeQualityFlags df t' zt ms ot it).high_cardinality_cols) ∧
    (∀ t : ℤ, t < (nunique col.cells : ℤ) →
      col.name ∈ (computeQualityFlags df t zt ms ot it).high_cardinality_cols) ∧
    (∀ t : ℤ, (nunique col.cells : ℤ) ≤ t →
      col.name ∉ (computeQualityFlags df t zt ms ot it).high_cardinality_cols) := by
  have hmemc : col ∈ categoricalCols df := mem_categoricalCols hmem hkind
  have hnodc := nodup_categoricalCols hnodup
  have key : ∀ t : ℤ,
      col.name ∈ (computeQualityFlags df t zt ms ot it).high_cardinality_cols ↔
        t < (nunique col.cells : ℤ) := by
    intro t
    simp only [computeQualityFlags_eq]
    rw [mem_map_filter_name hmemc hnodc]
    simp [highCardCheck]
  refine ⟨key hct, ?_, ?_, ?_⟩
  · intro t t' htt hm
    exact (key t').mpr (lt_of_le_of_lt htt ((key t).mp hm))
  · intro t ht
    exact (key t).mpr ht
  · intro t ht hm
    exact absurd ((key t).mp hm) (not_lt.mpr ht)

/-- Witness for claim C7 on a categorical column with three distinct values
and threshold 2. -/
theorem high_cardinality_strict_monotone_witness :
    (wCat.name ∈
        (computeQualityFlags wTableCat 2 (3/10) (1/10) (3/2) (9/10)).high_cardinality_cols ↔
      (2 : ℤ) < (nunique wCat.cells : ℤ)) ∧
    (∀ t t' : ℤ, t' ≤ t →
      wCat.name ∈
          (computeQualityFlags wTableCat t (3/10) (1/10) (3/2) (9/10)).high_cardinality_cols →
      wCat.name ∈
        (computeQualityFlags wTableCat t' (3/10) (1/10) (3/2) (9/10)).high_cardinality_cols) ∧
    (∀ t : ℤ, t < (nunique wCat.cells : ℤ) →
      wCat.name ∈
        (computeQualityFlags wTableCat t (3/10) (1/10) (3/2) (9/10)).high_cardinality_cols) ∧
    (∀ t : ℤ, (nunique wCat.cells : ℤ) ≤ t →
      wCat.name ∉
        (computeQualityFlags wTableCat t (3/10) (1/10) (3/2) (9/10)).high_cardinality_cols) :=
  high_cardinality_strict_monotone wTableCat wCat 2 (3/10) (1/10) (3/2) (9/10)
    (by decide) rfl (by decide)

/-- Claim C8: an upload whose filename does not end in `.csv` is rejected by
both file-upload endpoints with HTTP 400 and an empty effect trace — no
temporary file, no CSV load, no quality computation. -/
theorem non_csv_upload_rejected (filename : String) (df : Table) (hct : ℤ) (zt ms : ℚ)
    (h : pyEndsWith filename ".csv" = false) :
    qualityFromCsv filename df = (Except.error 400, ([] : List ApiEffect)) ∧
    qualityFlagsFromCsv filename df hct zt ms =
      (Except.error 400, ([] : List ApiEffect)) := by
  constructor <;> simp [qualityFromCsv, qualityFlagsFromCsv, h]

/-- Witness for claim C8 with the non-CSV filename `data.txt`. -/
theorem non_csv_upload_rejected_witness :
    qualityFromCsv "data.txt" ⟨0, []⟩ = (Except.error 400, ([] : List ApiEffect)) ∧
    qualityFlagsFromCsv "data.txt" ⟨0, []⟩ 50 (3/10) (1/10) =
      (Except.error 400, ([] : List ApiEffect)) :=
  non_csv_upload_rejected "data.txt" ⟨0, []⟩ 50 (3/10) (1/10) (by decide)

/-- Claim C9: the CLI's `quality.get('has_missing', False)` and
`quality.get('has_duplicates', False)` always evaluate to `False` for every
table and configuration, because `compute_quality_flags` never inserts those
keys; the true totals are still reported under `missing_count` and
`duplicate_count`. -/
theorem cli_has_missing_always_false (df : Table) (hct : ℤ) (zt ms ot it : ℚ) :
    cliHasMissing (computeQualityFlags df hct zt ms ot it) = PyValue.bool false ∧
    cliHasDuplicates (computeQualityFlags df hct zt ms ot it) = PyValue.bool false ∧
    cliMissingCount (computeQualityFlags df hct zt ms ot it) =
      PyValue.int ((computeQualityFlags df hct zt ms ot it).missing_count : ℤ) ∧
    cliDuplicateCount (computeQualityFlags df hct zt ms ot it) =
      PyValue.int ((computeQualityFlags df hct zt ms ot it).duplicate_count : ℤ) :=
  ⟨rfl, rfl, rfl, rfl⟩

/-- Claim C10: the constant-column pass counts distinct values over non-null
cells only — a column whose non-null values are all equal (even alongside
nulls) is flagged, while a column consisting entirely of nulls has distinct
count 0 and is not flagged. -/
theorem constant_pass_nonnull_distinct (df : Table) (col : Column) (hct : ℤ)
    (zt ms ot it : ℚ) (hmem : col ∈ df.cols)
    (hnodup : (df.cols.map Column.name).Nodup) :
    (col.name ∈ (computeQualityFlags df hct zt ms ot it).constant_columns ↔
      nunique col.cells = 1) ∧
    ((∃ c ∈ col.cells, c ≠ Cell.null) →
      (∀ a ∈ col.cells, a ≠ Cell.null → ∀ b ∈ col.cells, b ≠ Cell.null → a = b) →
      col.name ∈ (computeQualityFlags df hct zt ms ot it).constant_columns) ∧
    ((∀ c ∈ col.cells, c = Cell.null) →
      nunique col.cells = 0 ∧
      col.name ∉ (computeQualityFlags df hct zt ms ot it).constant_columns) := by
  have key : col.name ∈ (computeQualityFlags df hct zt ms ot it).constant_columns ↔
      nunique col.cells = 1 := by
    simp only [computeQualityFlags_eq]
    rw [mem_map_filter_name hmem hnodup]
    simp [constantCheck]
  refine ⟨key, ?_, ?_⟩
  · rintro ⟨v, hv, hvnull⟩ hall
    apply key.mpr
    have hvin : v ∈ nonNullCells col.cells :=
      List.mem_filter.mpr ⟨hv, (not_isNull_iff v).mpr hvnull⟩
    have hne : nonNullCells col.cells ≠ [] := by
      intro hnil
      rw [hnil] at hvin
      exact absurd hvin (List.not_mem_nil v)
    have halleq : ∀ b ∈ nonNullCells col.cells, b = v := by
      intro b hb
      obtain ⟨hbmem, hbnn⟩ := List.mem_filter.mp hb
      exact hall b hbmem ((not_isNull_iff b).mp hbnn) v hv hvnull
    unfold nunique
    rw [dedup_const v _ hne halleq]
    rfl
  · intro hall
    have hnil : nonNullCells col.cells = [] := by
      apply List.filter_eq_nil_iff.mpr
      intro a ha
      simp [hall a ha, isNull]
    have h0 : nunique col.cells = 0 := by
      unfold nunique
      rw [hnil]
      rfl
    refine ⟨h0, fun hm => ?_⟩
    have := key.mp hm
    omega

/-- Witness for claim C10 on the column `[5, null, 5]`. -/
theorem constant_pass_nonnull_distinct_witness :
    (wConst.name ∈
        (computeQualityFlags wTableConst 50 (3/10) (1/10) (3/2) (9/10)).constant_columns ↔
      nunique wConst.cells = 1) ∧
    ((∃ c ∈ wConst.cells, c ≠ Cell.null) →
      (∀ a ∈ wConst.cells, a ≠ Cell.null → ∀ b ∈ wConst.cells, b ≠ Cell.null → a = b) →
      wConst.name ∈
        (computeQualityFlags wTableConst 50 (3/10) (1/10) (3/2) (9/10)).constant_columns) ∧
    ((∀ c ∈ wConst.cells, c = Cell.null) →
      nunique wConst.cells = 0 ∧
      wConst.name ∉
        (computeQualityFlags wTableConst 50 (3/10) (1/10) (3/2) (9/10)).constant_columns) :=
  constant_pass_nonnull_distinct wTableConst wConst 50 (3/10) (1/10) (3/2) (9/10)
    (by decide) (by decide)

end Eda
